import Mathlib

/-!
Verification of the fhir2neo4j record-to-graph transformation engine.

The definitions below are shallow embeddings of the Python sources
(`model_common.py`, `queries.py`, `fhir2neo4j.py`, `model_patient.py`):
Python dictionaries become insertion-ordered association lists, mutation
becomes explicit state passing, generators become functions returning the
produced merge requests, and exceptions become `Except`.
-/

namespace Fhir2Neo4j

/-- Property values as they occur in the merge-request dictionaries:
strings, integers, booleans, or Python's `None` (which can be stored in a
dict as a value, e.g. by `process_codableconcepts`). -/
inductive PVal where
  | str (s : String)
  | int (i : Int)
  | bool (b : Bool)
  | none
deriving DecidableEq, Repr

/-- A Python dictionary with string keys, modelled as an insertion-ordered
association list (Python dicts preserve insertion order). -/
abbrev PropMap := List (String × PVal)

/-- Python dict assignment `d[k] = v`: updates the value in place if the key
exists (association lists built this way have unique keys, so replacing the
first occurrence is the Python behaviour), otherwise appends the new pair at
the end. -/
def dictInsert : PropMap → String → PVal → PropMap
  | [], k, v => [(k, v)]
  | p :: rest, k, v => if p.1 == k then (k, v) :: rest else p :: dictInsert rest k v

/-- Python `d.get(k)`: the stored value, or `None` when the key is absent. -/
def dictGet : PropMap → String → PVal
  | [], _ => PVal.none
  | p :: rest, k => if p.1 == k then p.2 else dictGet rest k

/-- Python `k in d`. -/
def dictMem (m : PropMap) (k : String) : Bool :=
  m.any (fun p => p.1 == k)

/-- Python dict union `d1 | d2`: the right operand wins; keys of `d1` keep
their position, new keys of `d2` are appended in `d2` order. -/
def dictUnion (m1 m2 : PropMap) : PropMap :=
  m2.foldl (fun acc p => dictInsert acc p.1 p.2) m1

/-- Removal of a key from a dict (order of the remaining entries kept). -/
def dictErase (m : PropMap) (k : String) : PropMap :=
  m.filter (fun p => p.1 != k)

/-- Python `del d[k]`: removes the key, raising `KeyError` when absent. -/
def dictDel (m : PropMap) (k : String) : Except String PropMap :=
  if dictMem m k then .ok (dictErase m k) else .error "KeyError"

/-- The numbered-key convention used throughout `model_common.py`:
`key if n == 0 else f"\x7bkey\x7d\x7bn + 1\x7d"` for the 0-based position `n`. -/
def numberedKey (key : String) (n : Nat) : String :=
  if n = 0 then key else key ++ toString (n + 1)

/-- The argument shape accepted by `append_properties`: Python `None`, a
single (non-`None`) non-list value, or a list whose items may themselves be
`None`. -/
inductive PyVals where
  | none
  | scalar (v : PVal)
  | list (vs : List PVal)
deriving Repr

/-- The normalisation `if type(values) is not list: values = [values]`
performed after the `values is not None` guard. -/
def PyVals.toList : PyVals → Option (List PVal)
  | .none => Option.none
  | .scalar v => Option.some [v]
  | .list vs => Option.some vs

/-- The `for n, value in enumerate(values)` loop body of `append_properties`:
skips `None` items, stores the rest under their numbered key. -/
def appendLoop (key : String) : Nat → List PVal → PropMap → PropMap
  | _, [], props => props
  | n, v :: vs, props =>
      appendLoop key (n + 1) vs
        (if v = PVal.none then props else dictInsert props (numberedKey key n) v)

/-- Embedding of `model_common.append_properties`: appends `values` to the
`properties` dict unless the value is `None`; list items are numbered with
the `numberedKey` convention. -/
def append_properties (values : PyVals) (key : String) (properties : PropMap) :
    PropMap :=
  match values.toList with
  | Option.none => properties
  | Option.some vs => appendLoop key 0 vs properties

/-- The ordered sequence of key/value assignments performed by the
`append_properties` loop starting at position `n`. -/
def writesLoop (key : String) : Nat → List PVal → List (String × PVal)
  | _, [] => []
  | n, v :: vs =>
      (if v = PVal.none then [] else [(numberedKey key n, v)]) ++ writesLoop key (n + 1) vs

/-- The ordered sequence of key/value assignments performed by
`append_properties` on the given input. -/
def append_properties_writes (values : PyVals) (key : String) :
    List (String × PVal) :=
  match values.toList with
  | Option.none => []
  | Option.some vs => writesLoop key 0 vs

theorem appendLoop_eq_foldl (key : String) (vs : List PVal) :
    ∀ (n : Nat) (props : PropMap),
      appendLoop key n vs props
        = (writesLoop key n vs).foldl (fun m kv => dictInsert m kv.1 kv.2) props := by
  induction vs with
  | nil => intro n props; simp [appendLoop, writesLoop]
  | cons v vs ih =>
      intro n props
      by_cases h : v = PVal.none
      · simp [appendLoop, writesLoop, h, ih]
      · simp [appendLoop, writesLoop, h, ih]

theorem append_properties_eq_foldl (values : PyVals) (key : String)
    (properties : PropMap) :
    append_properties values key properties
      = (append_properties_writes values key).foldl
          (fun m kv => dictInsert m kv.1 kv.2) properties := by
  cases values with
  | none => simp [append_properties, append_properties_writes, PyVals.toList]
  | scalar v => simp [append_properties, append_properties_writes, PyVals.toList,
      appendLoop_eq_foldl]
  | list vs => simp [append_properties, append_properties_writes, PyVals.toList,
      appendLoop_eq_foldl]

theorem writesLoop_keys (key : String) (vs : List PVal)
    (hvs : ∀ v ∈ vs, v ≠ PVal.none) :
    ∀ n : Nat,
      (writesLoop key n vs).map Prod.fst
        = (List.range vs.length).map (fun i => numberedKey key (n + i)) := by
  induction vs with
  | nil => intro n; simp [writesLoop]
  | cons v vs ih =>
      intro n
      have hv : v ≠ PVal.none := hvs v (by simp)
      have hrest : ∀ w ∈ vs, w ≠ PVal.none := fun w hw => hvs w (by simp [hw])
      have hcomp : ((fun i => numberedKey key (n + i)) ∘ Nat.succ)
          = (fun i => numberedKey key ((n + 1) + i)) := by
        funext i
        have h : n + Nat.succ i = n + 1 + i := by omega
        simp [Function.comp, h]
      simp only [writesLoop, if_neg hv, List.singleton_append, List.map_cons,
        List.length_cons, List.range_succ_eq_map, List.map_map]
      rw [ih hrest (n + 1), hcomp]
      simp

theorem writesLoop_values (key : String) (vs : List PVal)
    (hvs : ∀ v ∈ vs, v ≠ PVal.none) :
    ∀ n : Nat, (writesLoop key n vs).map Prod.snd = vs := by
  induction vs with
  | nil => intro n; simp [writesLoop]
  | cons v vs ih =>
      intro n
      have hv : v ≠ PVal.none := hvs v (by simp)
      have hrest : ∀ w ∈ vs, w ≠ PVal.none := fun w hw => hvs w (by simp [hw])
      simp [writesLoop, if_neg hv, ih hrest]

/-- C4: the flattening primitive `append_properties` performs exactly the
writes recorded by `append_properties_writes`; a non-null non-list value
writes exactly the key `k`; a list of `N ≥ 1` non-null values writes exactly
the keys `k, k2, …, kN` (via `numberedKey`) in input order with the input
values in order; an absent (`None`) input writes nothing. -/
theorem claim_C4_flattening :
    (∀ (values : PyVals) (k : String) (p : PropMap),
      append_properties values k p
        = (append_properties_writes values k).foldl
            (fun m kv => dictInsert m kv.1 kv.2) p)
    ∧ (∀ (v : PVal) (k : String), v ≠ PVal.none →
        append_properties_writes (.scalar v) k = [(k, v)])
    ∧ (∀ (vs : List PVal) (k : String), vs ≠ [] → (∀ v ∈ vs, v ≠ PVal.none) →
        (append_properties_writes (.list vs) k).map Prod.fst
            = (List.range vs.length).map (numberedKey k)
          ∧ (append_properties_writes (.list vs) k).map Prod.snd = vs)
    ∧ (∀ (k : String) (p : PropMap), append_properties .none k p = p) := by
  refine ⟨append_properties_eq_foldl, ?_, ?_, ?_⟩
  · intro v k hv
    simp [append_properties_writes, PyVals.toList, writesLoop, hv, numberedKey]
  · intro vs k _ hvs
    constructor
    · rw [append_properties_writes, PyVals.toList, writesLoop_keys k vs hvs 0]
      simp
    · rw [append_properties_writes, PyVals.toList, writesLoop_values k vs hvs 0]
  · intro k p; simp [append_properties, PyVals.toList]

/-- Witness for C4 at concrete inputs. -/
theorem claim_C4_flattening_witness :
    ((PVal.str "a" ≠ PVal.none)
      ∧ append_properties_writes (.scalar (PVal.str "a")) "k" = [("k", PVal.str "a")])
    ∧ (([PVal.str "a", PVal.str "b", PVal.str "c"] : List PVal) ≠ []
      ∧ (∀ v ∈ ([PVal.str "a", PVal.str "b", PVal.str "c"] : List PVal), v ≠ PVal.none)
      ∧ (append_properties_writes (.list [PVal.str "a", PVal.str "b", PVal.str "c"]) "k").map
            Prod.fst
          = (List.range 3).map (numberedKey "k")) := by
  refine ⟨⟨by decide, claim_C4_flattening.2.1 (PVal.str "a") "k" (by decide)⟩,
    by decide, by decide, ?_⟩
  have h := (claim_C4_flattening.2.2.1 [PVal.str "a", PVal.str "b", PVal.str "c"] "k"
    (by decide) (by decide)).1
  simpa using h

/-- A Python argument that is either a single string or a list of strings
(labels, relationship types). -/
inductive StrOrList where
  | s (x : String)
  | l (xs : List String)
deriving DecidableEq, Repr

/-- The `if type(x) is not list: x = [x]` normalisation for label arguments. -/
def StrOrList.toList : StrOrList → List String
  | .s x => [x]
  | .l xs => xs

/-- The `None | str | list` normalisation used for `node2_additional_labels`
(`None` becomes the empty list). -/
def optLabels : Option StrOrList → List String
  | Option.none => []
  | Option.some a => a.toList

/-- A node merge request as appended by `model_common.append_node_merge`. -/
structure NodeMerge where
  labels : List String
  identifying_properties : PropMap
  properties : PropMap
deriving DecidableEq, Repr

/-- A node-plus-relationship merge request as appended by
`model_common.append_node_relationship_merge`. -/
structure NodeRelMerge where
  n1_label : List String
  n1_identifiers : PropMap
  n2_label : List String
  n2_additional_labels : List String
  n2_identifiers : PropMap
  n2_properties : PropMap
  rel_type : String
  rel_properties : PropMap
deriving DecidableEq, Repr

/-- Embedding of `model_common.append_node_merge`. -/
def append_node_merge (node_labels : StrOrList) (identifying_properties : PropMap)
    (properties : PropMap) (node_merges : List NodeMerge) : List NodeMerge :=
  node_merges ++ [⟨node_labels.toList, identifying_properties, properties⟩]

/-- Embedding of `model_common.append_node_relationship_merge`. -/
def append_node_relationship_merge (node1_labels : StrOrList)
    (node1_identifiers : PropMap) (node2_labels : StrOrList)
    (node2_additional_labels : Option StrOrList) (node2_identifiers : PropMap)
    (node2_additional_properties : PropMap) (rel_type : String)
    (rel_properties : PropMap) (node_relationship_merges : List NodeRelMerge) :
    List NodeRelMerge :=
  node_relationship_merges ++
    [⟨node1_labels.toList, node1_identifiers, node2_labels.toList,
      optLabels node2_additional_labels, node2_identifiers,
      node2_additional_properties, rel_type, rel_properties⟩]

/-- A FHIR `Coding` element as read by `process_codings`. -/
structure Coding where
  code : Option String
  system : Option String
  version : Option String
  display : Option String
  userSelected : Option Bool
deriving DecidableEq, Repr

/-- An optional-scalar argument lifted to the `append_properties` input shape. -/
def optStr : Option String → PyVals
  | Option.none => .none
  | Option.some s => .scalar (.str s)

/-- An optional boolean lifted to the `append_properties` input shape. -/
def optBool : Option Bool → PyVals
  | Option.none => .none
  | Option.some b => .scalar (.bool b)

/-- An optional scalar as it is stored directly into a dict (Python keeps
`None` as the stored value). -/
def optPVal : Option String → PVal
  | Option.none => PVal.none
  | Option.some s => PVal.str s

/-- A missing component of the coding triple is recorded as the explicit
string `"None"`. -/
def optSentinel : Option String → PVal
  | Option.none => PVal.str "None"
  | Option.some s => PVal.str s

/-- The `properties` dict built by `process_codings` for one coding: system,
version and code are appended, missing identifying components get the string
sentinel `"None"`, then display and user_selected are appended. -/
def codingProperties (coding : Coding) : PropMap :=
  let p1 := append_properties (optStr coding.system) "system" []
  let p2 := append_properties (optStr coding.version) "version" p1
  let p3 := append_properties (optStr coding.code) "code" p2
  let p4 := ["code", "system", "version"].foldl
    (fun m k => if dictMem m k then m else dictInsert m k (PVal.str "None")) p3
  let p5 := append_properties (optStr coding.display) "display" p4
  append_properties (optBool coding.userSelected) "user_selected" p5

/-- The identifying-property dict of a coding node:
`dict((k, properties[k]) for k in ["code", "system", "version"])`. -/
def codingIdentifying (props : PropMap) : PropMap :=
  ["code", "system", "version"].map (fun k => (k, dictGet props k))

/-- The node-plus-relationship merge request emitted by `process_codings`
for one (valid) coding. -/
def mkCodingMerge (coding : Coding) (additional_labels : Option StrOrList)
    (rel_type : String) (rel_properties : PropMap) (parent_label : String)
    (parent_properties : PropMap) : NodeRelMerge :=
  let props := codingProperties coding
  ⟨[parent_label], parent_properties, ["Coding"], optLabels additional_labels,
    codingIdentifying props, props, rel_type, rel_properties⟩

/-- The `for coding in codings` loop of `process_codings`: a coding with
neither code nor system logs a warning and executes `break`, dropping the
remaining codings as well; the returned number counts logged warnings. -/
def codingsLoop (additional_labels : Option StrOrList) (rel_type : String)
    (rel_properties : PropMap) (parent_label : String)
    (parent_properties : PropMap) : List Coding → List NodeRelMerge × Nat
  | [] => ([], 0)
  | c :: rest =>
      if c.code = Option.none ∧ c.system = Option.none then ([], 1)
      else
        let r := codingsLoop additional_labels rel_type rel_properties
          parent_label parent_properties rest
        (mkCodingMerge c additional_labels rel_type rel_properties parent_label
            parent_properties :: r.1, r.2)

/-- A Python argument that is `None`, a single object, or a list of objects. -/
inductive PyList (α : Type) where
  | none
  | single (a : α)
  | list (xs : List α)
deriving Repr

/-- The `if x is not None / if type(x) is not list` normalisation. -/
def PyList.toList : PyList α → Option (List α)
  | .none => Option.none
  | .single a => Option.some [a]
  | .list xs => Option.some xs

/-- Embedding of `model_common.process_codings`: appends one coding node
merge (with a relationship from the parent) per processed coding to
`node_relationship_merges`, returning the updated list and the number of
logged warnings. -/
def process_codings (codings : PyList Coding) (additional_labels : Option StrOrList)
    (rel_type : String) (rel_properties : PropMap) (parent_label : String)
    (parent_properties : PropMap) (node_relationship_merges : List NodeRelMerge) :
    List NodeRelMerge × Nat :=
  match codings.toList with
  | Option.none => (node_relationship_merges, 0)
  | Option.some cs =>
      let r := codingsLoop additional_labels rel_type rel_properties parent_label
        parent_properties cs
      (node_relationship_merges ++ r.1, r.2)

theorem codingsLoop_spec (additional_labels : Option StrOrList) (rel_type : String)
    (rel_properties : PropMap) (parent_label : String) (parent_properties : PropMap)
    (cs : List Coding) :
    (codingsLoop additional_labels rel_type rel_properties parent_label
        parent_properties cs).1
      = (cs.takeWhile (fun c => !(c.code.isNone && c.system.isNone))).map
          (fun c => mkCodingMerge c additional_labels rel_type rel_properties
            parent_label parent_properties)
    ∧ (codingsLoop additional_labels rel_type rel_properties parent_label
        parent_properties cs).2
      = (if cs.all (fun c => !(c.code.isNone && c.system.isNone)) then 0 else 1) := by
  induction cs with
  | nil => simp [codingsLoop]
  | cons c rest ih =>
      by_cases h : c.code = Option.none ∧ c.system = Option.none
      · have hb : (c.code.isNone && c.system.isNone) = true := by
          simp [h.1, h.2]
        simp [codingsLoop, h, List.takeWhile_cons, List.all_cons, hb]
      · have hpos : c.code.isSome = true ∨ c.system.isSome = true := by
          cases hcc : c.code <;> cases hcs : c.system <;> simp_all
        simp [codingsLoop, h, List.takeWhile_cons, List.all_cons, hpos, ih.1, ih.2]

set_option maxHeartbeats 1000000 in
theorem codingIdentifying_codingProperties (c : Coding) :
    codingIdentifying (codingProperties c)
      = [("code", optSentinel c.code), ("system", optSentinel c.system),
         ("version", optSentinel c.version)] := by
  obtain ⟨cc, cs, cv, cd, cu⟩ := c
  cases cc <;> cases cs <;> cases cv <;> cases cd <;> cases cu <;>
    simp [codingIdentifying, codingProperties, append_properties, PyVals.toList,
      appendLoop, optStr, optBool, numberedKey, dictInsert, dictGet, dictMem,
      optSentinel, List.foldl]

/-- C7: every coding node merge produced by `process_codings` carries an
identifying-property map with exactly the three keys `code`, `system` and
`version`, each absent component recorded as the string sentinel `"None"`;
a coding with both code and system absent produces no node merge and exactly
one logged warning (and, via `break`, ends processing of the list). -/
theorem claim_C7_coding_identity :
    (∀ (c : Coding) (al : Option StrOrList) (rt : String) (rp : PropMap)
        (pl : String) (pp : PropMap),
      (mkCodingMerge c al rt rp pl pp).n2_identifiers
        = [("code", optSentinel c.code), ("system", optSentinel c.system),
           ("version", optSentinel c.version)])
    ∧ (∀ (cs : List Coding) (al : Option StrOrList) (rt : String) (rp : PropMap)
        (pl : String) (pp : PropMap) (rels : List NodeRelMerge),
      (process_codings (.list cs) al rt rp pl pp rels).1
        = rels ++ (cs.takeWhile (fun c => !(c.code.isNone && c.system.isNone))).map
            (fun c => mkCodingMerge c al rt rp pl pp)
      ∧ (process_codings (.list cs) al rt rp pl pp rels).2
        = (if cs.all (fun c => !(c.code.isNone && c.system.isNone)) then 0 else 1)) := by
  constructor
  · intro c al rt rp pl pp
    simpa [mkCodingMerge] using codingIdentifying_codingProperties c
  · intro cs al rt rp pl pp rels
    have h := codingsLoop_spec al rt rp pl pp cs
    exact ⟨by simp [process_codings, PyList.toList, h.1], by
      simp [process_codings, PyList.toList, h.2]⟩

/-- A FHIR `CodeableConcept` element as read by `process_codableconcepts`. -/
structure CodeableConcept where
  coding : PyList Coding
  text : Option String

/-- The sequence of assignments `additional_parent_properties[key_name] =
cc.text` performed by the `process_codableconcepts` loop from position `n`:
one numbered key per concept, with the stored value `None` when the
free-text is absent. -/
def textWrites (key : String) : Nat → List CodeableConcept → List (String × PVal)
  | _, [] => []
  | n, cc :: rest => (numberedKey key n, optPVal cc.text) :: textWrites key (n + 1) rest

/-- The `for n, cc in enumerate(ccs)` loop of `process_codableconcepts`:
processes each concept's codings and stores each concept's `.text`
(unconditionally, even when `None`) under its numbered key. -/
def ccLoop (additional_labels : Option StrOrList) (key rel_type : String)
    (rel_properties : PropMap) (parent_label : String) (parent_properties : PropMap) :
    Nat → List CodeableConcept → List NodeRelMerge → PropMap →
    List NodeRelMerge × PropMap × Nat
  | _, [], rels, app => (rels, app, 0)
  | n, cc :: rest, rels, app =>
      let r := process_codings cc.coding additional_labels rel_type rel_properties
        parent_label parent_properties rels
      let app2 := dictInsert app (numberedKey key n) (optPVal cc.text)
      let rec2 := ccLoop additional_labels key rel_type rel_properties parent_label
        parent_properties (n + 1) rest r.1 app2
      (rec2.1, rec2.2.1, r.2 + rec2.2.2)

/-- Embedding of `model_common.process_codableconcepts`: returns the updated
`node_merges` and `node_relationship_merges` lists plus the number of logged
warnings. -/
def process_codableconcepts (ccs : PyList CodeableConcept)
    (additional_labels : Option StrOrList) (key : String) (rel_type : String)
    (rel_properties : PropMap) (parent_label : String) (parent_properties : PropMap)
    (node_merges : List NodeMerge) (node_relationship_merges : List NodeRelMerge) :
    List NodeMerge × List NodeRelMerge × Nat :=
  match ccs.toList with
  | Option.none => (node_merges, node_relationship_merges, 0)
  | Option.some cs =>
      let r := ccLoop additional_labels key rel_type rel_properties parent_label
        parent_properties 0 cs node_relationship_merges []
      let nm :=
        if 0 < r.2.1.length then
          append_node_merge (.s parent_label) parent_properties
            (dictUnion parent_properties r.2.1) node_merges
        else node_merges
      (nm, r.1, r.2.2)

theorem ccLoop_app (additional_labels : Option StrOrList) (key rel_type : String)
    (rel_properties : PropMap) (parent_label : String) (parent_properties : PropMap)
    (cs : List CodeableConcept) :
    ∀ (n : Nat) (rels : List NodeRelMerge) (app : PropMap),
      (ccLoop additional_labels key rel_type rel_properties parent_label
          parent_properties n cs rels app).2.1
        = (textWrites key n cs).foldl (fun m kv => dictInsert m kv.1 kv.2) app := by
  induction cs with
  | nil => intro n rels app; simp [ccLoop, textWrites]
  | cons cc rest ih => intro n rels app; simp [ccLoop, textWrites, ih]

theorem dictInsert_ne_nil (m : PropMap) (k : String) (v : PVal) :
    dictInsert m k v ≠ [] := by
  cases m with
  | nil => simp [dictInsert]
  | cons p rest =>
      by_cases h : p.1 == k <;> simp [dictInsert, h]

theorem foldl_dictInsert_ne_nil (l : List (String × PVal)) :
    ∀ (app : PropMap), (l ≠ [] ∨ app ≠ []) →
      l.foldl (fun m kv => dictInsert m kv.1 kv.2) app ≠ [] := by
  induction l with
  | nil =>
      intro app h
      rcases h with h | h
      · exact absurd rfl h
      · simpa using h
  | cons kv rest ih =>
      intro app _
      simpa using ih (dictInsert app kv.1 kv.2) (Or.inr (dictInsert_ne_nil app kv.1 kv.2))

/-- C8 as amended: `process_codableconcepts` writes each concept's numbered
free-text key unconditionally — a concept with absent free-text still writes
its key with the stored value `None` — and, as soon as at least one concept
was processed, emits one owner node merge carrying the parent properties
updated by exactly these numbered-key writes. -/
theorem claim_C8_text_properties (cs : List CodeableConcept)
    (additional_labels : Option StrOrList) (key rel_type : String)
    (rel_properties : PropMap) (parent_label : String) (parent_properties : PropMap)
    (node_merges : List NodeMerge) (rels : List NodeRelMerge) (hcs : cs ≠ []) :
    (process_codableconcepts (.list cs) additional_labels key rel_type
        rel_properties parent_label parent_properties node_merges rels).1
      = node_merges ++
        [⟨[parent_label], parent_properties,
          dictUnion parent_properties
            ((textWrites key 0 cs).foldl (fun m kv => dictInsert m kv.1 kv.2) [])⟩] := by
  have happ := ccLoop_app additional_labels key rel_type rel_properties parent_label
    parent_properties cs 0 rels []
  have htw : textWrites key 0 cs ≠ [] := by
    cases cs with
    | nil => exact absurd rfl hcs
    | cons cc rest => simp [textWrites]
  have hne : (textWrites key 0 cs).foldl (fun m kv => dictInsert m kv.1 kv.2) [] ≠ [] :=
    foldl_dictInsert_ne_nil (textWrites key 0 cs) [] (Or.inl htw)
  have hlen : 0 < ((textWrites key 0 cs).foldl
      (fun m kv => dictInsert m kv.1 kv.2) []).length :=
    List.length_pos.mpr hne
  simp [process_codableconcepts, PyList.toList, happ, hlen, append_node_merge,
    StrOrList.toList]

/-- Witness for the amended C8 at a concrete input. -/
theorem claim_C8_text_properties_witness :
    (([⟨PyList.none, Option.some "free text"⟩] : List CodeableConcept) ≠ [])
    ∧ (process_codableconcepts (.list [⟨PyList.none, Option.some "free text"⟩])
        Option.none "ctext" "HAS_C" [] "Owner" [("fhir_id", PVal.str "x")] [] []).1
      = [] ++ [⟨["Owner"], [("fhir_id", PVal.str "x")],
          dictUnion [("fhir_id", PVal.str "x")]
            ((textWrites "ctext" 0 [⟨PyList.none, Option.some "free text"⟩]).foldl
              (fun m kv => dictInsert m kv.1 kv.2) [])⟩] :=
  ⟨by simp,
    claim_C8_text_properties [⟨PyList.none, Option.some "free text"⟩] Option.none
      "ctext" "HAS_C" [] "Owner" [("fhir_id", PVal.str "x")] [] [] (by simp)⟩

/-- Counterexample to C8 as stated: a concept whose free-text is absent
still writes a property on the owner — the numbered key is stored with the
value `None`. -/
theorem claim_C8_counterexample :
    (process_codableconcepts (.list [⟨PyList.none, Option.none⟩]) Option.none
        "ctext" "HAS_C" [] "Owner" [("fhir_id", PVal.str "x")] [] []).1
      = [⟨["Owner"], [("fhir_id", PVal.str "x")],
          [("fhir_id", PVal.str "x"), ("ctext", PVal.none)]⟩] := by
  rfl

/-- The Cypher identifier delimiter character (code point 0x60). -/
def backtick : Char := '\u0060'

/-- The six-character sequence targeted by the first replace of `queries.e`:
the Python literal `"\\u0060"` denotes the characters backslash, `u`, `0`,
`0`, `6`, `0` — not the delimiter character itself. -/
def escSeq : List Char := ['\\', 'u', '0', '0', '6', '0']

/-- Python `str.replace(old, new)` on character lists (non-overlapping
occurrences, left to right), written with explicit fuel so that it is
structurally recursive; `fuel ≥ l.length` always suffices and
`pyReplace` below supplies it. The empty-pattern behaviour of Python is
never exercised by `queries.e` and is not modelled. -/
def pyReplaceF (pat rep : List Char) : Nat → List Char → List Char
  | _, [] => []
  | 0, l => l
  | fuel + 1, c :: rest =>
      if pat ≠ [] ∧ pat.isPrefixOf (c :: rest) then
        rep ++ pyReplaceF pat rep fuel ((c :: rest).drop pat.length)
      else c :: pyReplaceF pat rep fuel rest

/-- Python `str.replace(old, new)` on character lists. -/
def pyReplace (pat rep l : List Char) : List Char :=
  pyReplaceF pat rep l.length l

/-- Embedding of `queries.e`:
`string.replace("\\u0060", backtick).replace(backtick, backtick backtick)`. -/
def e (s : List Char) : List Char :=
  pyReplace [backtick] [backtick, backtick] (pyReplace escSeq [backtick] s)

/-- Whether `pat` occurs as a contiguous subsequence of the list. -/
def hasSeq (pat : List Char) : List Char → Bool
  | [] => pat.isEmpty
  | c :: rest => pat.isPrefixOf (c :: rest) || hasSeq pat rest

/-- Doubling every delimiter character, leaving all other characters
untouched. -/
def doubleTicks : List Char → List Char
  | [] => []
  | c :: rest => (if c = backtick then [backtick, backtick] else [c]) ++ doubleTicks rest

theorem pyReplaceF_no_occur (pat rep : List Char) :
    ∀ (fuel : Nat) (l : List Char), hasSeq pat l = false →
      pyReplaceF pat rep fuel l = l := by
  intro fuel
  induction fuel with
  | zero => intro l _; cases l <;> simp [pyReplaceF]
  | succ fuel ih =>
      intro l hno
      cases l with
      | nil => simp [pyReplaceF]
      | cons c rest =>
          simp [hasSeq] at hno
          simp [pyReplaceF, hno.1, ih rest hno.2]

theorem pyReplace_no_occur (pat rep l : List Char) (hno : hasSeq pat l = false) :
    pyReplace pat rep l = l :=
  pyReplaceF_no_occur pat rep l.length l hno

theorem pyReplaceF_tick :
    ∀ (fuel : Nat) (l : List Char), l.length ≤ fuel →
      pyReplaceF [backtick] [backtick, backtick] fuel l = doubleTicks l := by
  intro fuel
  induction fuel with
  | zero =>
      intro l hl
      have hnil : l = [] := List.length_eq_zero.mp (Nat.le_zero.mp hl)
      simp [hnil, pyReplaceF, doubleTicks]
  | succ fuel ih =>
      intro l hl
      cases l with
      | nil => simp [pyReplaceF, doubleTicks]
      | cons c rest =>
          have hrest : rest.length ≤ fuel := by
            simpa [List.length_cons, Nat.succ_le_succ_iff] using hl
          by_cases hc : c = backtick
          · have hpre : [backtick].isPrefixOf (c :: rest) = true := by
              simp [List.isPrefixOf, hc]
            simp [pyReplaceF, hpre, hc, doubleTicks, ih rest hrest]
          · have hpre : [backtick].isPrefixOf (c :: rest) = false := by
              simp [List.isPrefixOf]
              exact Ne.symm hc
            simp [pyReplaceF, hpre, hc, doubleTicks, ih rest hrest]

theorem pyReplace_tick (l : List Char) :
    pyReplace [backtick] [backtick, backtick] l = doubleTicks l :=
  pyReplaceF_tick l.length l (Nat.le_refl _)

/-- Counterexample to C9 as stated: on the backtick-free six-character
input backslash-u-0-0-6-0 the function does not leave the string
unchanged — it collapses the sequence to a delimiter and then doubles it. -/
theorem claim_C9_escape_counterexample :
    e escSeq = [backtick, backtick] ∧ escSeq ≠ [backtick, backtick] :=
  ⟨by decide, by decide⟩

/-- C9 as amended: `e` first converts each literal backslash-u-0-0-6-0
six-character sequence into a delimiter character and then doubles every
delimiter; in particular, on strings not containing that sequence, it
doubles each embedded delimiter and makes no other change. -/
theorem claim_C9_escape_amended :
    (∀ l : List Char, e l = doubleTicks (pyReplace escSeq [backtick] l))
    ∧ (∀ l : List Char, hasSeq escSeq l = false → e l = doubleTicks l) := by
  constructor
  · intro l
    rw [e, pyReplace_tick]
  · intro l hno
    rw [e, pyReplace_no_occur escSeq [backtick] l hno, pyReplace_tick]

/-- Witness for the amended C9 at a concrete input containing a delimiter. -/
theorem claim_C9_escape_amended_witness :
    hasSeq escSeq [backtick, 'a'] = false
    ∧ e [backtick, 'a'] = doubleTicks [backtick, 'a'] :=
  ⟨by decide, claim_C9_escape_amended.2 [backtick, 'a'] (by decide)⟩

/-- The outcome of one `session.execute_write` call inside the batch-merge
retry loops of `queries.py`. -/
inductive Attempt (σ : Type) where
  | success (r : σ)
  | transientError
  | otherError
deriving DecidableEq, Repr

/-- How a batch-merge call terminates: `returned` on success,
`unboundLocalError` when the loop is left without `result` ever having been
bound (the `return result` statement then raises), `raisedOther` when a
non-transient exception is re-raised. -/
inductive RetryOutcome (σ : Type) where
  | returned (r : σ)
  | unboundLocalError
  | raisedOther
deriving DecidableEq, Repr

/-- The observable behaviour of one batch-merge call: how many
`execute_write` attempts were made, the `time.sleep` delays (in seconds)
between attempts, which log messages were emitted, and how the call ended. -/
structure RetryRun (σ : Type) where
  attemptsMade : Nat
  sleeps : List Nat
  loggedRetryInfo : Bool
  loggedSerializeError : Bool
  outcome : RetryOutcome σ
deriving DecidableEq, Repr

/-- The `while True` retry loop shared verbatim by `batch_merge_node` and
`batch_merge_node_relationship` (`queries.py`): `attempts k` is the outcome
of the `k`-th `execute_write` call; `retriesLeft` is `3 - n` for the
Python counter `n`, so the `n == 0` first-failure log corresponds to
`retriesLeft = 3`. On a transient error with `n < 3` the loop sleeps one
second and retries; otherwise it logs the error recommending serialized
execution and breaks without binding `result`. -/
def retryLoop (attempts : Nat → Attempt σ) : Nat → Nat → RetryRun σ
  | k, retriesLeft =>
      match attempts k, retriesLeft with
      | .success r, _ => ⟨1, [], false, false, .returned r⟩
      | .otherError, _ => ⟨1, [], false, false, .raisedOther⟩
      | .transientError, 0 => ⟨1, [], false, true, .unboundLocalError⟩
      | .transientError, rl + 1 =>
          let rest := retryLoop attempts (k + 1) rl
          ⟨rest.attemptsMade + 1, 1 :: rest.sleeps,
            (rl == 2) || rest.loggedRetryInfo, rest.loggedSerializeError,
            rest.outcome⟩

/-- Embedding of the `queries.batch_merge_node` session block: the retry
loop entered with `n = 0` (three retries available). -/
def batch_merge_node_run (attempts : Nat → Attempt σ) : RetryRun σ :=
  retryLoop attempts 0 3

/-- Embedding of the `queries.batch_merge_node_relationship` session block:
identical retry loop, entered with `n = 0`. -/
def batch_merge_node_relationship_run (attempts : Nat → Attempt σ) : RetryRun σ :=
  retryLoop attempts 0 3

/-- C3: when every attempt raises a transient (deadlock-class) error, both
batch-merge writes make exactly 4 attempts (3 retries), sleeping a fixed
1-second delay before each retry, then log the error recommending
non-parallel execution and stop attempting. -/
theorem claim_C3_retry_bound (σ : Type) (attempts : Nat → Attempt σ)
    (h : ∀ k, attempts k = .transientError) :
    (batch_merge_node_run attempts).attemptsMade = 4
    ∧ (batch_merge_node_run attempts).sleeps = [1, 1, 1]
    ∧ (batch_merge_node_run attempts).loggedSerializeError = true
    ∧ batch_merge_node_relationship_run attempts = batch_merge_node_run attempts := by
  have hrun : batch_merge_node_run attempts
      = ⟨4, [1, 1, 1], true, true, .unboundLocalError⟩ := by
    simp [batch_merge_node_run, retryLoop, h 0, h 1, h 2, h 3]
  refine ⟨by rw [hrun], by rw [hrun], by rw [hrun], ?_⟩
  rw [batch_merge_node_relationship_run, batch_merge_node_run]

/-- Witness for C3 with the constantly-failing attempt sequence. -/
theorem claim_C3_retry_bound_witness :
    (∀ k, (fun _ : Nat => (Attempt.transientError : Attempt Nat)) k
        = Attempt.transientError)
    ∧ (batch_merge_node_run (fun _ : Nat => (Attempt.transientError : Attempt Nat))).attemptsMade
        = 4 :=
  ⟨fun _ => rfl,
    (claim_C3_retry_bound Nat (fun _ => Attempt.transientError) (fun _ => rfl)).1⟩

/-- C10: when every attempt raises a transient error, the retry loop of
either batch-merge function exits after the fourth attempt without binding
`result`, so the final `return result` raises an unbound-local error: the
call ends in an exception, not a result summary. -/
theorem claim_C10_unbound_result (σ : Type) (attempts : Nat → Attempt σ)
    (h : ∀ k, attempts k = .transientError) :
    (batch_merge_node_run attempts).outcome = RetryOutcome.unboundLocalError
    ∧ (batch_merge_node_relationship_run attempts).outcome
        = RetryOutcome.unboundLocalError
    ∧ (∀ r : σ, (batch_merge_node_run attempts).outcome ≠ RetryOutcome.returned r) := by
  have hrun : batch_merge_node_run attempts
      = ⟨4, [1, 1, 1], true, true, .unboundLocalError⟩ := by
    simp [batch_merge_node_run, retryLoop, h 0, h 1, h 2, h 3]
  have hrun2 : batch_merge_node_relationship_run attempts
      = ⟨4, [1, 1, 1], true, true, .unboundLocalError⟩ := by
    simp [batch_merge_node_relationship_run, retryLoop, h 0, h 1, h 2, h 3]
  refine ⟨by rw [hrun], by rw [hrun2], ?_⟩
  intro r
  rw [hrun]
  simp

/-- Witness for C10 with the constantly-failing attempt sequence. -/
theorem claim_C10_unbound_result_witness :
    (∀ k, (fun _ : Nat => (Attempt.transientError : Attempt Nat)) k
        = Attempt.transientError)
    ∧ (batch_merge_node_run (fun _ : Nat => (Attempt.transientError : Attempt Nat))).outcome
        = RetryOutcome.unboundLocalError :=
  ⟨fun _ => rfl,
    (claim_C10_unbound_result Nat (fun _ => Attempt.transientError) (fun _ => rfl)).1⟩

/-- Python `f"..."` formatting of a dict value (`str()` of the object). -/
def pyStr : PVal → String
  | .str s => s
  | .int i => toString i
  | .bool b => if b then "True" else "False"
  | .none => "None"

/-- A call to `queries.delete_node_relationship_node` (the arguments of the
deletion request issued by `process_backboneelements`). -/
structure DeleteNRN where
  node1_label : Option String
  node1_properties : PropMap
  rel_type : Option String
  rel_properties : PropMap
  node2_label : Option String
  node2_properties : PropMap
  node_to_delete : String
deriving DecidableEq, Repr

/-- The synthetic identifier built by `process_backboneelements` for the
`n`-th (0-based) sub-structure: the parent's `fhir_id` (or, failing that,
`temp_id`) followed by an underscore, the lowercased label and the 1-based
position; an exception is raised when the parent has neither key. -/
def bbeNewId (parent_properties : PropMap) (label : String) (n : Nat) :
    Except String String :=
  if dictMem parent_properties "fhir_id" then
    .ok (pyStr (dictGet parent_properties "fhir_id") ++ "_" ++ label.toLower
      ++ toString (n + 1))
  else if dictMem parent_properties "temp_id" then
    .ok (pyStr (dictGet parent_properties "temp_id") ++ "_" ++ label.toLower
      ++ toString (n + 1))
  else .error "Could not process backbone element: parent id missing."

/-- The `for n, bbe in enumerate(backboneelements)` loop of
`process_backboneelements`: builds the synthetic identity, yields the
properties dict to the caller (modelled by `populate`, which returns the
properties dict as the caller left it), then appends one
node-plus-relationship merge from the parent to the sub-entity. -/
def bbeLoop {α : Type} (rel_type label parent_label : String)
    (parent_properties : PropMap) (populate : α → PropMap → PropMap) :
    Nat → List α → List NodeRelMerge → Except String (List NodeRelMerge)
  | _, [], rels => .ok rels
  | n, bbe :: rest, rels =>
      match bbeNewId parent_properties label n with
      | .error msg => .error msg
      | .ok new_id =>
          let bbe_properties := dictInsert [] "temp_id" (PVal.str new_id)
          let bbe_identifying := [("temp_id", dictGet bbe_properties "temp_id")]
          let props := populate bbe bbe_properties
          bbeLoop rel_type label parent_label parent_properties populate (n + 1) rest
            (append_node_relationship_merge (.s parent_label) parent_properties
              (.s label) Option.none bbe_identifying props rel_type [] rels)

/-- Embedding of `model_common.process_backboneelements`: unless the
database is freshly deleted, first issues one deletion of all `label` nodes
attached to the parent via `rel_type`; then processes each sub-structure as
in `bbeLoop`. Returns the deletion requests and the updated merge list.
Caller-side merges emitted during the yield go to other lists and are
outside this function. -/
def process_backboneelements {α : Type} (backboneelements : PyList α)
    (rel_type label parent_label : String) (parent_properties : PropMap)
    (database_deleted : Bool) (populate : α → PropMap → PropMap)
    (node_relationship_merges : List NodeRelMerge) :
    Except String (List DeleteNRN × List NodeRelMerge) :=
  let deletes : List DeleteNRN :=
    if database_deleted then []
    else [⟨Option.some parent_label, parent_properties, Option.some rel_type, [],
      Option.some label, [], "n2"⟩]
  match backboneelements.toList with
  | Option.none => .ok (deletes, node_relationship_merges)
  | Option.some bbes =>
      match bbeLoop rel_type label parent_label parent_properties populate 0 bbes
        node_relationship_merges with
      | .error msg => .error msg
      | .ok rels => .ok (deletes, rels)

/-- The merge request emitted for the sub-structure at 0-based position `n`
when the parent's identifying key is the string `p`. -/
def bbeMergeSpec {α : Type} (rel_type label parent_label : String)
    (parent_properties : PropMap) (populate : α → PropMap → PropMap)
    (p : String) (n : Nat) (bbe : α) : NodeRelMerge :=
  ⟨[parent_label], parent_properties, [label], [],
    [("temp_id", PVal.str (p ++ "_" ++ label.toLower ++ toString (n + 1)))],
    populate bbe [("temp_id", PVal.str (p ++ "_" ++ label.toLower ++ toString (n + 1)))],
    rel_type, []⟩

/-- The merges emitted for the sub-structures from position `n` on. -/
def bbeMergesSpec {α : Type} (rel_type label parent_label : String)
    (parent_properties : PropMap) (populate : α → PropMap → PropMap)
    (p : String) : Nat → List α → List NodeRelMerge
  | _, [] => []
  | n, bbe :: rest =>
      bbeMergeSpec rel_type label parent_label parent_properties populate p n bbe
        :: bbeMergesSpec rel_type label parent_label parent_properties populate p
            (n + 1) rest

theorem bbeLoop_spec {α : Type} (rel_type label parent_label : String)
    (pp : PropMap) (populate : α → PropMap → PropMap) (p : String)
    (hm : dictMem pp "fhir_id" = true) (hg : dictGet pp "fhir_id" = PVal.str p)
    (bbes : List α) :
    ∀ (n : Nat) (rels : List NodeRelMerge),
      bbeLoop rel_type label parent_label pp populate n bbes rels
        = .ok (rels ++ bbeMergesSpec rel_type label parent_label pp populate p n bbes) := by
  induction bbes with
  | nil => intro n rels; simp [bbeLoop, bbeMergesSpec]
  | cons bbe rest ih =>
      intro n rels
      have hid : bbeNewId pp label n
          = .ok (p ++ "_" ++ label.toLower ++ toString (n + 1)) := by
        simp [bbeNewId, hm, hg, pyStr]
      simp only [bbeLoop, hid, ih (n + 1), bbeMergesSpec]
      simp [append_node_relationship_merge, StrOrList.toList, optLabels,
        dictInsert, dictGet, bbeMergeSpec]

/-- C5: for a sub-entity list under a parent identified by `fhir_id = p`,
exactly one prior deletion of all `label` nodes attached to the parent via
`rel_type` is issued unless the database is freshly deleted, and one merge
request per sub-structure is emitted whose sole identifying property is
`temp_id = p + "_" + lowercased label + (1-based position)`. -/
theorem claim_C5_backbone {α : Type} (bbes : List α)
    (rel_type label parent_label : String) (pp : PropMap)
    (database_deleted : Bool) (populate : α → PropMap → PropMap)
    (rels : List NodeRelMerge) (p : String)
    (hm : dictMem pp "fhir_id" = true) (hg : dictGet pp "fhir_id" = PVal.str p) :
    process_backboneelements (.list bbes) rel_type label parent_label pp
        database_deleted populate rels
      = .ok ((if database_deleted then []
          else [⟨Option.some parent_label, pp, Option.some rel_type, [],
            Option.some label, [], "n2"⟩]),
        rels ++ bbeMergesSpec rel_type label parent_label pp populate p 0 bbes)
    ∧ ∀ (n : Nat) (bbe : α),
        (bbeMergeSpec rel_type label parent_label pp populate p n bbe).n2_identifiers
          = [("temp_id", PVal.str (p ++ "_" ++ label.toLower ++ toString (n + 1)))] := by
  constructor
  · simp [process_backboneelements, PyList.toList,
      bbeLoop_spec rel_type label parent_label pp populate p hm hg bbes 0 rels]
  · intro n bbe
    rfl

/-- Witness for C5 with two unit sub-structures under parent `p1`. -/
theorem claim_C5_backbone_witness :
    dictMem [("fhir_id", PVal.str "p1")] "fhir_id" = true
    ∧ dictGet [("fhir_id", PVal.str "p1")] "fhir_id" = PVal.str "p1"
    ∧ process_backboneelements (.list [(), ()]) "HAS_PART" "Part" "Parent"
        [("fhir_id", PVal.str "p1")] false (fun _ pr => pr) []
      = .ok ([⟨Option.some "Parent", [("fhir_id", PVal.str "p1")],
            Option.some "HAS_PART", [], Option.some "Part", [], "n2"⟩],
          [] ++ bbeMergesSpec "HAS_PART" "Part" "Parent"
            [("fhir_id", PVal.str "p1")] (fun _ pr => pr) "p1" 0 [(), ()]) := by
  refine ⟨by decide, by decide, ?_⟩
  have h := (claim_C5_backbone [(), ()] "HAS_PART" "Part" "Parent"
    [("fhir_id", PVal.str "p1")] false (fun _ pr => pr) [] "p1"
    (by decide) (by decide)).1
  simpa using h

/-- A FHIR `Reference.identifier` as read by `process_references`. -/
structure RefIdentifier where
  value : Option String
  system : Option String
deriving DecidableEq, Repr

/-- A FHIR `Reference` element as read by `process_references`. -/
structure FHIRReference where
  type : Option String
  reference : Option String
  identifier : Option RefIdentifier
  display : Option String
deriving DecidableEq, Repr

/-- The `referenced_object_label` argument of `process_references`:
`None`, a single resource-type string, or an allow-list of types. -/
inductive RefLabelArg where
  | none
  | s (x : String)
  | l (xs : List String)
deriving DecidableEq, Repr

/-- A successful match of the resource-type URL regex used (twice, with the
identical pattern) in `process_references`: group 1 is the resource-type
name from the closed vocabulary, group 2 the extracted id. -/
structure UrlMatch where
  g1 : String
  g2 : Option String
deriving DecidableEq, Repr

/-- The label-resolution phase of `process_references` (the regex engine
`re.search` with the fixed resource-type pattern is abstracted as the
function `parse`, shared with the id-extraction phase): returns the resolved
node label, or `none` when the code logs a warning and returns. -/
def resolveLabel (parse : String → Option UrlMatch) (reference : FHIRReference) :
    RefLabelArg → Option String
  | .s x => Option.some x
  | rol =>
      match reference.type with
      | Option.none =>
          match reference.reference with
          | Option.some s =>
              match parse s with
              | Option.some m =>
                  match rol with
                  | .l xs => if m.g1 ∈ xs then Option.some m.g1 else Option.none
                  | _ => Option.some m.g1
              | Option.none => Option.none
          | Option.none => Option.none
      | Option.some t =>
          match rol with
          | .l xs => if t ∈ xs then Option.some t else Option.none
          | _ => Option.some t

/-- The per-instance outcome of `process_references`: the node merges
appended (only the display-only property write), the relationship merges
appended (literal or logical-placeholder edge), the number of logged
warnings and of logged placeholder infos. -/
structure RefStepResult where
  node_merges : List NodeMerge
  node_relationship_merges : List NodeRelMerge
  warnings : Nat
  infos : Nat
deriving DecidableEq, Repr

/-- The display block of `process_references`: when `Reference.display` is
present, the description is stored as a property of the parent node. -/
def refDisplayMerges (reference : FHIRReference) (property_name parent_label : String)
    (parent_properties : PropMap) : List NodeMerge :=
  match reference.display with
  | Option.some d =>
      append_node_merge (.s parent_label) parent_properties
        (dictUnion parent_properties [(property_name, PVal.str d)]) []
  | Option.none => []

/-- The literal/logical edge block of `process_references`: a literal
reference (URL) takes precedence; only when it is absent is a logical
identifier considered. Returns the appended relationship merges, warnings
and infos. -/
def refEdgeResult (parse : String → Option UrlMatch) (reference : FHIRReference)
    (label rel_type parent_label : String) (parent_properties : PropMap) :
    List NodeRelMerge × Nat × Nat :=
  match reference.reference with
  | Option.some s =>
      match parse s with
      | Option.some m =>
          match m.g2 with
          | Option.some found_id =>
              (append_node_relationship_merge (.s parent_label) parent_properties
                (.s label) Option.none [("fhir_id", PVal.str found_id)] [] rel_type
                [] [], 0, 0)
          | Option.none => ([], 0, 0)
      | Option.none => ([], 0, 0)
  | Option.none =>
      match reference.identifier with
      | Option.some ident =>
          match ident.value, ident.system with
          | Option.some v, Option.some sys =>
              (append_node_relationship_merge (.s parent_label) parent_properties
                (.s label) Option.none
                [("fhir2neo4j_to_be_processed", PVal.bool true),
                 ("identifier_value", PVal.str v),
                 ("identifier_system", PVal.str sys)] [] rel_type
                [("fhir2neo4j_to_be_processed", PVal.bool true),
                 ("reference_type", PVal.str "logical")] [], 0, 1)
          | _, _ => ([], 1, 0)
      | Option.none => ([], 0, 0)

/-- Embedding of one iteration of the `for n, reference in enumerate(...)`
loop of `model_common.process_references` for a non-`None` reference:
label resolution (warning and return on failure), the all-three-absent
check (warning and return), then the display write followed by the
literal-else-logical edge block. -/
def process_reference_one (parse : String → Option UrlMatch)
    (reference : FHIRReference) (referenced_object_label : RefLabelArg)
    (property_name rel_type parent_label : String)
    (parent_properties : PropMap) : RefStepResult :=
  match resolveLabel parse reference referenced_object_label with
  | Option.none => ⟨[], [], 1, 0⟩
  | Option.some label =>
      if reference.reference = Option.none ∧ reference.identifier = Option.none
          ∧ reference.display = Option.none then ⟨[], [], 1, 0⟩
      else
        let nm := refDisplayMerges reference property_name parent_label
          parent_properties
        let er := refEdgeResult parse reference label rel_type parent_label
          parent_properties
        ⟨nm, er.1, er.2.1, er.2.2⟩

theorem refEdgeResult_le_one (parse : String → Option UrlMatch)
    (reference : FHIRReference) (label rel_type parent_label : String)
    (pp : PropMap) :
    (refEdgeResult parse reference label rel_type parent_label pp).1.length ≤ 1 := by
  unfold refEdgeResult
  cases href : reference.reference with
  | some s =>
      cases hp : parse s with
      | some m =>
          cases hg : m.g2 with
          | some found_id => simp [hp, hg, append_node_relationship_merge]
          | none => simp [hp, hg]
      | none => simp [hp]
  | none =>
      cases hid : reference.identifier with
      | some ident =>
          cases hv : ident.value with
          | some v =>
              cases hs : ident.system with
              | some sys => simp [hv, hs, append_node_relationship_merge]
              | none => simp [hv, hs]
          | none => simp [hv]
      | none => simp

theorem refDisplayMerges_shape (reference : FHIRReference)
    (property_name parent_label : String) (pp : PropMap) :
    refDisplayMerges reference property_name parent_label pp = []
    ∨ ∃ d, reference.display = Option.some d
        ∧ refDisplayMerges reference property_name parent_label pp
          = [⟨[parent_label], pp, dictUnion pp [(property_name, PVal.str d)]⟩] := by
  unfold refDisplayMerges
  cases hd : reference.display with
  | some d =>
      exact Or.inr ⟨d, rfl, by simp [append_node_merge, StrOrList.toList]⟩
  | none => exact Or.inl rfl

/-- C1 as amended: per reference instance, at most one edge outcome is
produced (a literal edge or a logical-placeholder edge, the literal taking
precedence — never both); the display-only property on the origin node is
produced independently of the edge whenever display text is present, so a
display-plus-edge pair can occur together; a reference with none of the
three inputs available produces no merge and one logged warning. -/
theorem claim_C1_reference_amended (parse : String → Option UrlMatch)
    (reference : FHIRReference) (rol : RefLabelArg)
    (property_name rel_type parent_label : String) (pp : PropMap) :
    (process_reference_one parse reference rol property_name rel_type
        parent_label pp).node_relationship_merges.length ≤ 1
    ∧ (reference.reference = Option.none → reference.identifier = Option.none →
        reference.display = Option.none →
        process_reference_one parse reference rol property_name rel_type
          parent_label pp = ⟨[], [], 1, 0⟩)
    ∧ ((process_reference_one parse reference rol property_name rel_type
          parent_label pp).node_merges = []
        ∨ ∃ d, reference.display = Option.some d
          ∧ (process_reference_one parse reference rol property_name rel_type
              parent_label pp).node_merges
            = [⟨[parent_label], pp, dictUnion pp [(property_name, PVal.str d)]⟩]) := by
  unfold process_reference_one
  cases hL : resolveLabel parse reference rol with
  | none => simp
  | some label =>
      by_cases hall : reference.reference = Option.none
          ∧ reference.identifier = Option.none ∧ reference.display = Option.none
      · simp [hall]
      · simp only [if_neg hall]
        refine ⟨refEdgeResult_le_one parse reference label rel_type parent_label pp,
          ?_, ?_⟩
        · intro h1 h2 h3
          exact absurd ⟨h1, h2, h3⟩ hall
        · exact refDisplayMerges_shape reference property_name parent_label pp

/-- Witness for the amended C1 at a concrete logical reference. -/
theorem claim_C1_reference_amended_witness :
    ((Option.none : Option String) = Option.none →
      (Option.some (⟨Option.some "123", Option.some "urn:x"⟩ : RefIdentifier))
          = Option.none →
      (Option.none : Option String) = Option.none →
      process_reference_one (fun _ => Option.none)
        ⟨Option.none, Option.none,
          Option.some ⟨Option.some "123", Option.some "urn:x"⟩, Option.none⟩
        (.s "Organization") "assigner" "ASSIGNED_BY" "Identifier" []
        = ⟨[], [], 1, 0⟩)
    ∧ (process_reference_one (fun _ => Option.none)
        ⟨Option.none, Option.none,
          Option.some ⟨Option.some "123", Option.some "urn:x"⟩, Option.none⟩
        (.s "Organization") "assigner" "ASSIGNED_BY" "Identifier"
        []).node_relationship_merges.length ≤ 1 :=
  ⟨(claim_C1_reference_amended (fun _ => Option.none)
      ⟨Option.none, Option.none,
        Option.some ⟨Option.some "123", Option.some "urn:x"⟩, Option.none⟩
      (.s "Organization") "assigner" "ASSIGNED_BY" "Identifier" []).2.1,
    (claim_C1_reference_amended (fun _ => Option.none)
      ⟨Option.none, Option.none,
        Option.some ⟨Option.some "123", Option.some "urn:x"⟩, Option.none⟩
      (.s "Organization") "assigner" "ASSIGNED_BY" "Identifier" []).1⟩

/-- A concrete stand-in for the URL regex, matching exactly the test URL. -/
def demoParse : String → Option UrlMatch := fun s =>
  if s = "Patient/p1" then Option.some ⟨"Patient", Option.some "p1"⟩ else Option.none

/-- Counterexample to C1 as stated: a reference carrying both display text
and a parseable literal URL produces two outcomes for the same reference
instance — the display-only property on the origin node and a literal edge. -/
theorem claim_C1_reference_counterexample :
    (process_reference_one demoParse
        ⟨Option.none, Option.some "Patient/p1", Option.none,
          Option.some "Doctor X"⟩
        (.s "Patient") "gp" "HAS_GP" "Patient"
        [("fhir_id", PVal.str "x")]).node_merges.length = 1
    ∧ (process_reference_one demoParse
        ⟨Option.none, Option.some "Patient/p1", Option.none,
          Option.some "Doctor X"⟩
        (.s "Patient") "gp" "HAS_GP" "Patient"
        [("fhir_id", PVal.str "x")]).node_relationship_merges.length = 1
    ∧ (process_reference_one demoParse
        ⟨Option.none, Option.some "Patient/p1", Option.none,
          Option.some "Doctor X"⟩
        (.s "Patient") "gp" "HAS_GP" "Patient"
        [("fhir_id", PVal.str "x")]).warnings = 0 := by
  refine ⟨?_, ?_, ?_⟩ <;> rfl

/-- A node as returned by a store query (labels plus properties; the label
set is iterated with `next(iter(...))`, modelled as taking the list head). -/
structure GNode where
  labels : List String
  props : PropMap
deriving DecidableEq, Repr

/-- A relationship as returned by a store query. -/
structure GRel where
  rel_type : String
  props : PropMap
deriving DecidableEq, Repr

/-- A write issued by the resolution pass: `queries.merge_relationship`
or `queries.delete_nodes` with the given arguments. -/
inductive StoreOp where
  | mergeRel (n1_label : String) (n1_identifiers : PropMap) (n2_label : String)
      (n2_identifiers : PropMap) (rel_type : String) (rel_properties : PropMap)
  | deleteNodes (label : String) (props : PropMap)
deriving DecidableEq, Repr

/-- How one pending-reference match is settled by the resolution pass. -/
inductive ResolveOutcome where
  | resolved
  | targetNotFound
  | notLogical
deriving DecidableEq, Repr

/-- Embedding of one iteration of the match loop in
`fhir2neo4j.resolve_references` for a matched `(n1, r, n2)` triple carrying
the pending-resolution marker. `lookup lbl idprops` models the query
`MATCH (x:lbl)-[IDENTIFIED_BY]->(:Identifier idprops)` and returns the
matched `x` nodes. `next(iter(labels))` on an empty frozenset raises
`StopIteration`, modelled as an error. -/
def resolve_one (lookup : String → PropMap → List GNode) (n1 : GNode) (r : GRel)
    (n2 : GNode) : Except String (List StoreOp × ResolveOutcome) :=
  if dictGet r.props "reference_type" = PVal.str "logical" then
    match n2.labels with
    | [] => .error "StopIteration"
    | n2_label :: _ =>
        match lookup n2_label [("value", dictGet n2.props "identifier_value"),
          ("system", dictGet n2.props "identifier_system")] with
        | [] => .ok ([], .targetNotFound)
        | target :: _ =>
            match n1.labels with
            | [] => .error "StopIteration"
            | n1_label :: _ =>
                match dictDel r.props "fhir2neo4j_to_be_processed" with
                | .error msg => .error msg
                | .ok rp1 =>
                    match dictDel rp1 "reference_type" with
                    | .error msg => .error msg
                    | .ok rel_prop =>
                        .ok ([.mergeRel n1_label n1.props n2_label target.props
                            r.rel_type rel_prop,
                          .deleteNodes n2_label
                            [("fhir2neo4j_to_be_processed", PVal.bool true),
                             ("identifier_value", dictGet n2.props "identifier_value"),
                             ("identifier_system", dictGet n2.props "identifier_system")]],
                          .resolved)
  else .ok ([], .notLogical)

theorem dictMem_of_dictGet_str (m : PropMap) (k v : String)
    (h : dictGet m k = PVal.str v) : dictMem m k = true := by
  induction m with
  | nil => simp [dictGet] at h
  | cons p rest ih =>
      by_cases hk : p.1 == k
      · simp [dictMem, hk]
      · simp [dictGet, hk] at h
        simp [dictMem, hk]
        have := ih h
        simpa [dictMem] using this

theorem dictMem_cons (q : String × PVal) (l : PropMap) (k : String) :
    dictMem (q :: l) k = (q.1 == k || dictMem l k) := rfl

theorem dictGet_cons (q : String × PVal) (l : PropMap) (k : String) :
    dictGet (q :: l) k = if q.1 == k then q.2 else dictGet l k := rfl

theorem dictErase_cons_self (q : String × PVal) (l : PropMap) (k : String)
    (h : q.1 = k) : dictErase (q :: l) k = dictErase l k := by
  simp [dictErase, List.filter_cons, h]

theorem dictErase_cons_ne (q : String × PVal) (l : PropMap) (k : String)
    (h : ¬ q.1 = k) : dictErase (q :: l) k = q :: dictErase l k := by
  simp [dictErase, List.filter_cons, h]

theorem dictMem_erase_ne (m : PropMap) (k1 k2 : String) (h : k1 ≠ k2) :
    dictMem (dictErase m k2) k1 = dictMem m k1 := by
  induction m with
  | nil => rfl
  | cons p rest ih =>
      by_cases h2 : p.1 = k2
      · have h1 : (p.1 == k1) = false := by
          simp [h2]
          exact fun hc => h hc.symm
        rw [dictErase_cons_self p rest k2 h2, ih, dictMem_cons, h1]
        simp
      · rw [dictErase_cons_ne p rest k2 h2, dictMem_cons, dictMem_cons, ih]

theorem dictGet_erase_eq_of_ne (m : PropMap) (k1 k2 : String) (h : k1 ≠ k2) :
    dictGet (dictErase m k2) k1 = dictGet m k1 := by
  induction m with
  | nil => rfl
  | cons p rest ih =>
      by_cases h2 : p.1 = k2
      · have h1 : (p.1 == k1) = false := by
          simp [h2]
          exact fun hc => h hc.symm
        rw [dictErase_cons_self p rest k2 h2, ih, dictGet_cons, h1]
        simp
      · rw [dictErase_cons_ne p rest k2 h2, dictGet_cons, dictGet_cons, ih]

/-- C6: a pending match is resolved only when the relationship's
`reference_type` is `"logical"` (others produce no store operation and are
logged as unresolved); when a real target node is found, the new direct
relationship carries the original relationship's type and exactly its
properties minus the two marker keys, and the placeholder is deleted by
matching its label together with the marker flag and the stored
`(identifier_value, identifier_system)` pair. -/
theorem claim_C6_resolution (lookup : String → PropMap → List GNode)
    (n1 : GNode) (r : GRel) (n2 : GNode) :
    (dictGet r.props "reference_type" ≠ PVal.str "logical" →
      resolve_one lookup n1 r n2 = .ok ([], .notLogical))
    ∧ (∀ l2 rest2, dictGet r.props "reference_type" = PVal.str "logical" →
        n2.labels = l2 :: rest2 →
        lookup l2 [("value", dictGet n2.props "identifier_value"),
          ("system", dictGet n2.props "identifier_system")] = [] →
        resolve_one lookup n1 r n2 = .ok ([], .targetNotFound))
    ∧ (∀ l1 rest1 l2 rest2 target trest,
        dictGet r.props "reference_type" = PVal.str "logical" →
        dictMem r.props "fhir2neo4j_to_be_processed" = true →
        n1.labels = l1 :: rest1 → n2.labels = l2 :: rest2 →
        lookup l2 [("value", dictGet n2.props "identifier_value"),
          ("system", dictGet n2.props "identifier_system")] = target :: trest →
        resolve_one lookup n1 r n2
          = .ok ([.mergeRel l1 n1.props l2 target.props r.rel_type
                (dictErase (dictErase r.props "fhir2neo4j_to_be_processed")
                  "reference_type"),
              .deleteNodes l2
                [("fhir2neo4j_to_be_processed", PVal.bool true),
                 ("identifier_value", dictGet n2.props "identifier_value"),
                 ("identifier_system", dictGet n2.props "identifier_system")]],
             .resolved)) := by
  refine ⟨?_, ?_, ?_⟩
  · intro hne
    simp [resolve_one, hne]
  · intro l2 rest2 hlog hn2 hlook
    simp [resolve_one, hlog, hn2, hlook]
  · intro l1 rest1 l2 rest2 target trest hlog hflag hn1 hn2 hlook
    have hdel1 : dictDel r.props "fhir2neo4j_to_be_processed"
        = .ok (dictErase r.props "fhir2neo4j_to_be_processed") := by
      simp [dictDel, hflag]
    have hmem2 : dictMem (dictErase r.props "fhir2neo4j_to_be_processed")
        "reference_type" = true := by
      rw [dictMem_erase_ne r.props "reference_type" "fhir2neo4j_to_be_processed"
        (by decide)]
      exact dictMem_of_dictGet_str r.props "reference_type" "logical" hlog
    have hdel2 : dictDel (dictErase r.props "fhir2neo4j_to_be_processed")
        "reference_type"
        = .ok (dictErase (dictErase r.props "fhir2neo4j_to_be_processed")
            "reference_type") := by
      simp [dictDel, hmem2]
    simp [resolve_one, hlog, hn1, hn2, hlook, hdel1, hdel2]

/-- Witness for C6: a concrete logical placeholder whose real target exists. -/
theorem claim_C6_resolution_witness :
    dictGet [("fhir2neo4j_to_be_processed", PVal.bool true),
        ("reference_type", PVal.str "logical"), ("note", PVal.str "keep")]
      "reference_type" = PVal.str "logical"
    ∧ resolve_one
        (fun lbl idp =>
          if lbl = "Patient"
              ∧ idp = [("value", PVal.str "123"), ("system", PVal.str "urn:x")] then
            [⟨["Patient"], [("fhir_id", PVal.str "p9")]⟩]
          else [])
        ⟨["Observation"], [("fhir_id", PVal.str "o1")]⟩
        ⟨"REFERS_TO", [("fhir2neo4j_to_be_processed", PVal.bool true),
          ("reference_type", PVal.str "logical"), ("note", PVal.str "keep")]⟩
        ⟨["Patient"], [("fhir2neo4j_to_be_processed", PVal.bool true),
          ("identifier_value", PVal.str "123"),
          ("identifier_system", PVal.str "urn:x")]⟩
      = .ok ([.mergeRel "Observation" [("fhir_id", PVal.str "o1")] "Patient"
            [("fhir_id", PVal.str "p9")] "REFERS_TO"
            (dictErase (dictErase [("fhir2neo4j_to_be_processed", PVal.bool true),
                ("reference_type", PVal.str "logical"), ("note", PVal.str "keep")]
              "fhir2neo4j_to_be_processed") "reference_type"),
          .deleteNodes "Patient"
            [("fhir2neo4j_to_be_processed", PVal.bool true),
             ("identifier_value",
               dictGet [("fhir2neo4j_to_be_processed", PVal.bool true),
                 ("identifier_value", PVal.str "123"),
                 ("identifier_system", PVal.str "urn:x")] "identifier_value"),
             ("identifier_system",
               dictGet [("fhir2neo4j_to_be_processed", PVal.bool true),
                 ("identifier_value", PVal.str "123"),
                 ("identifier_system", PVal.str "urn:x")] "identifier_system")]],
          .resolved) := by
  refine ⟨by decide, ?_⟩
  have h := (claim_C6_resolution
    (fun lbl idp =>
      if lbl = "Patient"
          ∧ idp = [("value", PVal.str "123"), ("system", PVal.str "urn:x")] then
        [⟨["Patient"], [("fhir_id", PVal.str "p9")]⟩]
      else [])
    ⟨["Observation"], [("fhir_id", PVal.str "o1")]⟩
    ⟨"REFERS_TO", [("fhir2neo4j_to_be_processed", PVal.bool true),
      ("reference_type", PVal.str "logical"), ("note", PVal.str "keep")]⟩
    ⟨["Patient"], [("fhir2neo4j_to_be_processed", PVal.bool true),
      ("identifier_value", PVal.str "123"),
      ("identifier_system", PVal.str "urn:x")]⟩).2.2
    "Observation" [] "Patient" [] ⟨["Patient"], [("fhir_id", PVal.str "p9")]⟩ []
    (by decide) (by decide) rfl rfl (by decide)
  simpa using h

/-- One bundle entry: the contained resource's declared type and its
(optional) id — the only fields the pipeline and the minimal model read. -/
structure BEntry where
  resource_type : String
  id : Option String
deriving DecidableEq, Repr

/-- A pagination link of a bundle. -/
structure BLink where
  relation : String
  url : String
deriving DecidableEq, Repr

/-- A bundle page as read by `fetch_resources`: the server-reported total,
the (possibly absent) entry list, and the pagination links. -/
structure Bundle where
  total : Nat
  entry : Option (List BEntry)
  link : List BLink
deriving Repr

/-- Errors of `bundle_read_from`: a FHIR validation error (caught, the page
loop breaks) or any other exception (re-raised). -/
inductive FetchErr where
  | validationError
  | otherError
deriving DecidableEq, Repr

/-- The skeleton of `model_patient.process_resource` (lines 88–102) shared
by every resource model: a resource without an id is skipped with a warning
and contributes nothing; otherwise `fhir_id` is appended to the properties,
the identifying dict is `\x7b"fhir_id": properties["fhir_id"]\x7d` and one node
merge is emitted. All optional fields are absent in the modelled scenario,
so their `append_*` calls write nothing; `label` stands for the model's
fixed node label. -/
def process_resource_minimal (label : String) (entry : BEntry) :
    List NodeMerge × List NodeRelMerge :=
  match entry.id with
  | Option.none => ([], [])
  | Option.some pid =>
      let properties := append_properties (optStr (Option.some pid)) "fhir_id" []
      (append_node_merge (.s label) [("fhir_id", dictGet properties "fhir_id")]
        properties [], [])

/-- One batch write submitted to the load layer. -/
inductive Batch where
  | nodes (l : List NodeMerge)
  | rels (l : List NodeRelMerge)
deriving DecidableEq, Repr

/-- The search for a `next` relation among the bundle's links. -/
def findNextLink (links : List BLink) : Option String :=
  (links.find? (fun l => l.relation == "next")).map (fun l => l.url)

/-- `link.url.split(server_base_url)[-1].lstrip("/")`. -/
def stripNextUrl (base url : String) : String :=
  ((url.splitOn base).getLastD url).dropWhile (fun c => c = '/')

/-- Whether the optional resource limit has been reached. -/
def limitReached (limit : Option Nat) (received : Nat) : Bool :=
  match limit with
  | Option.none => false
  | Option.some lim => decide (lim ≤ received)

/-- The `for entry in bundle.entry` loop of `fetch_resources` (sequential
mode): counts every entry of the requested type — before the model gets to
accept or skip it — and gathers the merge lists. -/
def pageFold (resource_type : String)
    (process : BEntry → List NodeMerge × List NodeRelMerge)
    (entries : List BEntry) : Nat × List NodeMerge × List NodeRelMerge :=
  entries.foldl
    (fun acc entry =>
      if entry.resource_type == resource_type then
        (acc.1 + 1, acc.2.1 ++ (process entry).1, acc.2.2 ++ (process entry).2)
      else acc)
    (0, [], [])

/-- The `while True` pagination loop of `fetch_resources` (sequential mode),
with explicit fuel bounding the number of page reads. Returns the final
`(received, discarded, batches, requested page urls)`, an error for a
re-raised exception, or `none` when the fuel ran out. -/
def fetchLoop (server : String → Except FetchErr Bundle) (resource_type : String)
    (process : BEntry → List NodeMerge × List NodeRelMerge)
    (limit : Option Nat) (server_base_url : String) :
    Nat → String → Nat → Nat → List Batch → List String →
    Option (Except FetchErr (Nat × Nat × List Batch × List String))
  | 0, _, _, _, _, _ => Option.none
  | fuel + 1, next_url, received, discarded, batches, pages =>
      match server next_url with
      | .error .validationError =>
          Option.some (.ok (received, discarded, batches, pages ++ [next_url]))
      | .error .otherError => Option.some (.error .otherError)
      | .ok bundle =>
          match bundle.entry with
          | Option.some entries =>
              let f := pageFold resource_type process entries
              let received2 := received + f.1
              let batches2 := batches
                ++ (if 0 < f.2.1.length then [Batch.nodes f.2.1] else [])
                ++ (if 0 < f.2.2.length then [Batch.rels f.2.2] else [])
              if limitReached limit received2 then
                Option.some (.ok (received2, discarded, batches2, pages ++ [next_url]))
              else
                match findNextLink bundle.link with
                | Option.none =>
                    Option.some (.ok (received2, discarded, batches2,
                      pages ++ [next_url]))
                | Option.some url =>
                    fetchLoop server resource_type process limit server_base_url
                      fuel (stripNextUrl server_base_url url) received2 discarded
                      batches2 (pages ++ [next_url])
          | Option.none =>
              match findNextLink bundle.link with
              | Option.none =>
                  Option.some (.ok (received, discarded + 1, batches,
                    pages ++ [next_url]))
              | Option.some url =>
                  fetchLoop server resource_type process limit server_base_url
                    fuel (stripNextUrl server_base_url url) received (discarded + 1)
                    batches (pages ++ [next_url])

/-- How a `fetch_resources` call ends: `errorNone` models the `return None`
paths (count-read failure, zero total), `raised` a propagated exception,
`done` the returned `received`/`total` counters together with the submitted
batches and the page urls requested by the loop. -/
inductive FetchOutcome where
  | errorNone
  | raised (err : FetchErr)
  | done (received : Nat) (total : Nat) (discarded : Nat) (batches : List Batch)
      (pages : List String)
deriving DecidableEq, Repr

/-- Embedding of `fhir2neo4j.fetch_resources` (sequential mode): the
`_summary=count` read determines the total, then the pagination loop runs
starting at `resource_type?_count=chunk_size`. -/
def fetch_resources (server : String → Except FetchErr Bundle)
    (resource_type : String) (chunk_size : Nat) (limit : Option Nat)
    (process : BEntry → List NodeMerge × List NodeRelMerge)
    (server_base_url : String) (fuel : Nat) : Option FetchOutcome :=
  match server (resource_type ++ "?_summary=count") with
  | .error _ => Option.some .errorNone
  | .ok b =>
      if b.total = 0 then Option.some .errorNone
      else
        match fetchLoop server resource_type process limit server_base_url fuel
            (resource_type ++ "?_count=" ++ toString chunk_size) 0 0 [] [] with
        | Option.none => Option.none
        | Option.some (.error err) => Option.some (.raised err)
        | Option.some (.ok (received, discarded, batches, pages)) =>
            Option.some (.done received b.total discarded batches pages)

/-- The `received` counter reported by a finished `fetch_resources` call. -/
def fetchReceived : Option FetchOutcome → Option Nat
  | Option.some (FetchOutcome.done r _ _ _ _) => Option.some r
  | _ => Option.none

/-- The concrete source of the C2 scenario: `total = 2` for type `Widget`;
the single page holds two `Widget` entries, one with id `w1` and one with
no id, and carries no `next` link. -/
def widgetServer : String → Except FetchErr Bundle := fun url =>
  if url = "Widget?_summary=count" then .ok ⟨2, Option.none, []⟩
  else if url = "Widget?_count=250" then
    .ok ⟨2, Option.some [⟨"Widget", Option.some "w1"⟩, ⟨"Widget", Option.none⟩], []⟩
  else .error .otherError

/-- Counterexample to C2 as stated: in the scenario the pipeline reports
`received = 2`, not `received = 1` — the counter is incremented for every
entry of the requested type before the model's id check can skip it. -/
theorem claim_C2_counterexample :
    fetchReceived (fetch_resources widgetServer "Widget" 250 Option.none
        (process_resource_minimal "Widget") "http://example.org/fhir" 5)
      = Option.some 2
    ∧ fetchReceived (fetch_resources widgetServer "Widget" 250 Option.none
        (process_resource_minimal "Widget") "http://example.org/fhir" 5)
      ≠ Option.some 1 := by
  refine ⟨by decide, by decide⟩

/-- C2 as amended: in the scenario the pipeline requests exactly one page
(no further page read), submits exactly one merge-request batch containing
exactly one node request identified by `fhir_id = "w1"`, and reports
`received = 2` (both entries are of the requested type, the id-less one
counted before being skipped) and `total = 2`. -/
theorem claim_C2_scenario :
    fetch_resources widgetServer "Widget" 250 Option.none
        (process_resource_minimal "Widget") "http://example.org/fhir" 5
      = Option.some (FetchOutcome.done 2 2 0
          [Batch.nodes [⟨["Widget"], [("fhir_id", PVal.str "w1")],
            [("fhir_id", PVal.str "w1")]⟩]]
          ["Widget?_count=250"]) := by
  decide

end Fhir2Neo4j
